import Mathlib

/-!
Verification of the quran_tafsir_api acquisition-and-load pipeline.

This file shallowly embeds the parts of the repository relevant to the
verified properties:

* `config_utils.validate_verse_reference` and
  `AltafsirScraper.validate_verse_reference` (scrape_altafsir_com.py), with
  their two verse-count tables;
* the importer (`import_altafsir_data.py`): `check_existing_tafsir`,
  `import_tafsir_metadata`, `import_verses_batch`, `import_tafsir_verses`,
  `log_import_result`, `import_tafsir_file`, `load_progress`, `save_progress`;
* the scraper (`scrape_altafsir_com.py`): `fetch_with_retry`, the chapter
  loop of `scrape_complete_tafsir`, `load_progress`, `save_progress`.

Python dicts are embedded as association lists (preserving insertion order),
machine integers as `Int`/`Nat` (Python integers are unbounded, so no
wrap-around modelling is needed), and fallible operations take their
file-system or network outcome as an explicit argument.
-/

/-- Python `dict` lookup for an integer-keyed dict literal, embedded as an
association list: returns the value of the first matching key, `none` when
the key is absent (Python `key in d` / `d[key]`). -/
def dictLookup {β : Type} : List (Int × β) → Int → Option β
  | [], _ => none
  | (k, v) :: rest, c => if c = k then some v else dictLookup rest c

namespace ConfigUtils

/-- The `VERSE_COUNTS` dict literal inside
`config_utils.validate_verse_reference` (src/config_utils.py:336-349). -/
def VERSE_COUNTS : List (Int × Int) :=
  [(1, 7), (2, 286), (3, 200), (4, 176), (5, 120), (6, 165), (7, 206), (8, 75),
   (9, 129), (10, 109), (11, 123), (12, 111), (13, 43), (14, 52), (15, 99),
   (16, 128), (17, 111), (18, 110), (19, 98), (20, 135), (21, 112), (22, 78),
   (23, 118), (24, 64), (25, 77), (26, 227), (27, 93), (28, 88), (29, 69),
   (30, 60), (31, 34), (32, 30), (33, 73), (34, 54), (35, 45), (36, 83),
   (37, 182), (38, 88), (39, 75), (40, 85), (41, 54), (42, 53), (43, 89),
   (44, 59), (45, 37), (46, 35), (47, 38), (48, 29), (49, 18), (50, 45),
   (51, 60), (52, 49), (53, 62), (54, 55), (55, 78), (56, 96), (57, 29),
   (58, 22), (59, 24), (60, 13), (61, 14), (62, 11), (63, 11), (64, 18),
   (65, 12), (66, 12), (67, 30), (68, 52), (69, 52), (70, 44), (71, 28),
   (72, 28), (73, 20), (74, 56), (75, 40), (76, 31), (77, 50), (78, 40),
   (79, 46), (80, 42), (81, 29), (82, 19), (83, 36), (84, 25), (85, 22),
   (86, 17), (87, 19), (88, 26), (89, 30), (90, 20), (91, 15), (92, 21),
   (93, 11), (94, 8), (95, 8), (96, 19), (97, 5), (98, 8), (99, 8), (100, 11),
   (101, 11), (102, 8), (103, 3), (104, 9), (105, 5), (106, 4), (107, 7),
   (108, 3), (109, 6), (110, 3), (111, 5), (112, 4), (113, 5), (114, 6)]

/-- `config_utils.validate_verse_reference(chapter, verse)`
(src/config_utils.py:333-358): rejects chapters outside 1..114, rejects
chapters absent from `VERSE_COUNTS`, then checks `1 <= verse <= max_verses`. -/
def validate_verse_reference (chapter verse : Int) : Bool :=
  if chapter < 1 || chapter > 114 then false
  else
    match dictLookup VERSE_COUNTS chapter with
    | none => false
    | some max_verses => decide (1 ≤ verse ∧ verse ≤ max_verses)

/-- The verse count of a chapter per `VERSE_COUNTS` (0 for chapters absent
from the table); used to state the specification-side characterisation. -/
def verseCount (chapter : Int) : Int :=
  (dictLookup VERSE_COUNTS chapter).getD 0

end ConfigUtils

namespace AltafsirScraper

/-- The `QURAN_CHAPTERS` class attribute of `AltafsirScraper`
(src/scrape_altafsir_com.py:97-136): chapter id ↦ (name, verse count).
This is a second, independent copy of the verse-count data. -/
def QURAN_CHAPTERS : List (Int × String × Int) :=
  [(1, "Al-Fatihah", 7), (2, "Al-Baqarah", 286), (3, "Ali \x27Imran", 200),
   (4, "An-Nisa", 176), (5, "Al-Ma\x27idah", 120), (6, "Al-An\x27am", 165),
   (7, "Al-A\x27raf", 206), (8, "Al-Anfal", 75), (9, "At-Tawbah", 129),
   (10, "Yunus", 109), (11, "Hud", 123), (12, "Yusuf", 111),
   (13, "Ar-Ra\x27d", 43), (14, "Ibrahim", 52), (15, "Al-Hijr", 99),
   (16, "An-Nahl", 128), (17, "Al-Isra", 111), (18, "Al-Kahf", 110),
   (19, "Maryam", 98), (20, "Taha", 135), (21, "Al-Anbya", 112),
   (22, "Al-Hajj", 78), (23, "Al-Mu\x27minun", 118), (24, "An-Nur", 64),
   (25, "Al-Furqan", 77), (26, "Ash-Shu\x27ara", 227), (27, "An-Naml", 93),
   (28, "Al-Qasas", 88), (29, "Al-\x27Ankabut", 69), (30, "Ar-Rum", 60),
   (31, "Luqman", 34), (32, "As-Sajdah", 30), (33, "Al-Ahzab", 73),
   (34, "Saba", 54), (35, "Fatir", 45), (36, "Ya-Sin", 83),
   (37, "As-Saffat", 182), (38, "Sad", 88), (39, "Az-Zumar", 75),
   (40, "Ghafir", 85), (41, "Fussilat", 54), (42, "Ash-Shuraa", 53),
   (43, "Az-Zukhruf", 89), (44, "Ad-Dukhan", 59), (45, "Al-Jathiyah", 37),
   (46, "Al-Ahqaf", 35), (47, "Muhammad", 38), (48, "Al-Fath", 29),
   (49, "Al-Hujurat", 18), (50, "Qaf", 45), (51, "Adh-Dhariyat", 60),
   (52, "At-Tur", 49), (53, "An-Najm", 62), (54, "Al-Qamar", 55),
   (55, "Ar-Rahman", 78), (56, "Al-Waqi\x27ah", 96), (57, "Al-Hadid", 29),
   (58, "Al-Mujadila", 22), (59, "Al-Hashr", 24), (60, "Al-Mumtahanah", 13),
   (61, "As-Saf", 14), (62, "Al-Jumu\x27ah", 11), (63, "Al-Munafiqun", 11),
   (64, "At-Taghabun", 18), (65, "At-Talaq", 12), (66, "At-Tahrim", 12),
   (67, "Al-Mulk", 30), (68, "Al-Qalam", 52), (69, "Al-Haqqah", 52),
   (70, "Al-Ma\x27arij", 44), (71, "Nuh", 28), (72, "Al-Jinn", 28),
   (73, "Al-Muzzammil", 20), (74, "Al-Muddaththir", 56), (75, "Al-Qiyamah", 40),
   (76, "Al-Insan", 31), (77, "Al-Mursalat", 50), (78, "An-Naba", 40),
   (79, "An-Nazi\x27at", 46), (80, "\x27Abasa", 42), (81, "At-Takwir", 29),
   (82, "Al-Infitar", 19), (83, "Al-Mutaffifin", 36), (84, "Al-Inshiqaq", 25),
   (85, "Al-Buruj", 22), (86, "At-Tariq", 17), (87, "Al-A\x27la", 19),
   (88, "Al-Ghashiyah", 26), (89, "Al-Fajr", 30), (90, "Al-Balad", 20),
   (91, "Ash-Shams", 15), (92, "Al-Layl", 21), (93, "Ad-Duhaa", 11),
   (94, "Ash-Sharh", 8), (95, "At-Tin", 8), (96, "Al-\x27Alaq", 19),
   (97, "Al-Qadr", 5), (98, "Al-Bayyinah", 8), (99, "Az-Zalzalah", 8),
   (100, "Al-\x27Adiyat", 11), (101, "Al-Qari\x27ah", 11), (102, "At-Takathur", 8),
   (103, "Al-\x27Asr", 3), (104, "Al-Humazah", 9), (105, "Al-Fil", 5),
   (106, "Quraysh", 4), (107, "Al-Ma\x27un", 7), (108, "Al-Kawthar", 3),
   (109, "Al-Kafirun", 6), (110, "An-Nasr", 3), (111, "Al-Masad", 5),
   (112, "Al-Ikhlas", 4), (113, "Al-Falaq", 5), (114, "An-Nas", 6)]

/-- `AltafsirScraper.validate_verse_reference(chapter, verse)`
(src/scrape_altafsir_com.py:288-297): same early returns as the
config_utils copy, but over `QURAN_CHAPTERS` with
`max_verses = QURAN_CHAPTERS[chapter][1]`. -/
def validate_verse_reference (chapter verse : Int) : Bool :=
  if chapter < 1 || chapter > 114 then false
  else
    match dictLookup QURAN_CHAPTERS chapter with
    | none => false
    | some nv => decide (1 ≤ verse ∧ verse ≤ nv.2)

end AltafsirScraper

/-! Bridge lemmas about the two tables. -/

theorem dictLookup_eq_none_of_keys {β : Type} (l : List (Int × β)) (c : Int)
    (h : ∀ p ∈ l, p.1 ≠ c) : dictLookup l c = none := by
  induction l with
  | nil => rfl
  | cons p rest ih =>
    obtain ⟨k, v⟩ := p
    have hk : k ≠ c := h (k, v) (List.mem_cons_self _ _)
    have hne : ¬(c = k) := fun hc => hk hc.symm
    simp only [dictLookup, if_neg hne]
    exact ih fun q hq => h q (List.mem_cons_of_mem _ hq)

theorem VERSE_COUNTS_keys_range :
    ∀ p ∈ ConfigUtils.VERSE_COUNTS, 1 ≤ p.1 ∧ p.1 ≤ 114 := by decide

set_option maxRecDepth 20000

theorem QURAN_CHAPTERS_keys_range :
    ∀ p ∈ AltafsirScraper.QURAN_CHAPTERS, 1 ≤ p.1 ∧ p.1 ≤ 114 := by decide

theorem dictLookup_VERSE_COUNTS_inRange (c : Int) (h1 : 1 ≤ c) (h2 : c ≤ 114) :
    dictLookup ConfigUtils.VERSE_COUNTS c = some (ConfigUtils.verseCount c) := by
  interval_cases c <;> rfl

theorem tables_agree (c : Int) (h1 : 1 ≤ c) (h2 : c ≤ 114) :
    (dictLookup AltafsirScraper.QURAN_CHAPTERS c).map (fun nv => nv.2)
      = dictLookup ConfigUtils.VERSE_COUNTS c := by
  interval_cases c <;> rfl

/-- C6: for every pair of integers, `validate_verse_reference` returns
true exactly when `1 ≤ chapter ≤ 114` and `1 ≤ verse ≤ VERSE_COUNT[chapter]`
per the fixed 114-entry table, and false otherwise; it is a pure total
function, and the stated boundary examples hold. -/
theorem validate_verse_reference_correct :
    (∀ c v : Int, ConfigUtils.validate_verse_reference c v = true ↔
      (1 ≤ c ∧ c ≤ 114 ∧ 1 ≤ v ∧ v ≤ ConfigUtils.verseCount c))
    ∧ ConfigUtils.validate_verse_reference 1 7 = true
    ∧ ConfigUtils.validate_verse_reference 1 8 = false
    ∧ ConfigUtils.validate_verse_reference 114 6 = true
    ∧ ConfigUtils.validate_verse_reference 115 1 = false
    ∧ ConfigUtils.validate_verse_reference 0 1 = false := by
  refine ⟨fun c v => ?_, by decide, by decide, by decide, by decide, by decide⟩
  by_cases hc : 1 ≤ c ∧ c ≤ 114
  · obtain ⟨h1, h2⟩ := hc
    have hguard : (c < 1 || c > 114) = false := by
      simp only [Bool.or_eq_false_iff, decide_eq_false_iff_not, not_lt]
      exact ⟨h1, h2⟩
    unfold ConfigUtils.validate_verse_reference
    rw [hguard, dictLookup_VERSE_COUNTS_inRange c h1 h2]
    simp only [Bool.false_eq_true, if_false, decide_eq_true_eq]
    constructor
    · rintro ⟨hv1, hv2⟩; exact ⟨h1, h2, hv1, hv2⟩
    · rintro ⟨_, _, hv1, hv2⟩; exact ⟨hv1, hv2⟩
  · have hguard : (c < 1 || c > 114) = true := by
      rcases not_and_or.mp hc with h | h
      · simp only [Bool.or_eq_true, decide_eq_true_eq]
        exact Or.inl (lt_of_not_le h)
      · simp only [Bool.or_eq_true, decide_eq_true_eq]
        exact Or.inr (lt_of_not_le h)
    unfold ConfigUtils.validate_verse_reference
    rw [hguard]
    simp only [if_true, Bool.false_eq_true, false_iff]
    rintro ⟨h1, h2, _, _⟩
    exact hc ⟨h1, h2⟩

/-! ## The importer (import_altafsir_data.py)

The importer's SQLite store is embedded as explicit row lists; `INSERT OR
REPLACE` under `UNIQUE(verse_key, translation_id)` becomes a filter-and-append
upsert. The MD5 content hash (`calculate_data_hash`) is kept abstract as an
explicit function argument `hashFn`: no verified property depends on the
digest's value, only on its placement in the `data_hash` column. -/

namespace AltafsirImporter

/-- The `meta` object of a tafsir JSON document: required keys `tid`, `tn`,
`lang` (checked by `validate_tafsir_file`), optional `au` and `source_url`
(read with `.get` defaults at src/import_altafsir_data.py:261,264,327). -/
structure Meta where
  tid : Int
  tn : String
  au : Option String
  lang : String
  source_url : Option String
deriving DecidableEq, Repr

/-- One value of the document's `vs` dict: the fields the importer reads.
`c` and `n` are read with `.get('c', 0)` / `.get('n', 0)` (absent keys
become 0); `tf_t` is `verse_data.get('tf', {}).get('t', '')` (absent
nesting becomes the empty string). -/
structure VerseEntry where
  c : Int
  n : Int
  tf_t : String
deriving DecidableEq, Repr

/-- A structurally valid tafsir document as accepted by
`validate_tafsir_file`: `meta` plus the `vs` dict as an insertion-ordered
association list (the `chs` key is never read by the importer and is
omitted). -/
structure TafsirData where
  meta : Meta
  vs : List (String × VerseEntry)
deriving DecidableEq, Repr

/-- One row of the `quran_translations` table (the columns the importer
writes; `id`/timestamps are store-generated and irrelevant to the claims). -/
structure Row where
  verse_key : String
  chapter_number : Int
  verse_number : Int
  translation_id : Int
  translation_name : String
  author_name : String
  language_code : String
  text : String
  resource_type : String
  data_hash : String
deriving DecidableEq, Repr

/-- One row of the `tafsir_metadata` table (primary key `translation_id`).
`data_checksum` is an MD5 of the raw source file, pure file IO, and is
omitted from the pure model. -/
structure MetaRow where
  translation_id : Int
  name : String
  author : String
  language_code : String
  description : String
  source_url : String
  total_verses : Nat
  file_path : String
deriving DecidableEq, Repr

/-- One row of the append-only `import_log` table (the columns
`log_import_result` fills; `import_date`/`duration_seconds` are wall-clock
values outside the pure model). -/
structure LogEntry where
  file_path : String
  translation_id : Int
  verses_imported : Nat
  verses_skipped : Nat
  status : String
  error_message : Option String
deriving DecidableEq, Repr

/-- The importer's SQLite database: the three tables it writes. -/
structure DB where
  rows : List Row
  tafsir_metadata : List MetaRow
  import_log : List LogEntry
deriving DecidableEq, Repr

def emptyDB : DB := ⟨[], [], []⟩

/-- The `UNIQUE(verse_key, translation_id) ON CONFLICT REPLACE` key of
`quran_translations`. -/
def rowKey (r : Row) : String × Int := (r.verse_key, r.translation_id)

/-- `INSERT OR REPLACE` of one row into `quran_translations`: the
conflicting row (same `(verse_key, translation_id)`) is deleted and the new
row inserted. -/
def upsertRow (rows : List Row) (t : Row) : List Row :=
  rows.filter (fun r => !decide (rowKey r = rowKey t)) ++ [t]

/-- `cursor.executemany` of the upsert statement over a batch, in order. -/
def upsertMany (rows : List Row) (batch : List Row) : List Row :=
  batch.foldl upsertRow rows

/-- `AltafsirImporter.check_existing_tafsir`
(src/import_altafsir_data.py:232-240): `SELECT COUNT(*) FROM tafsir_metadata
WHERE translation_id = ?` compared with 0. -/
def check_existing_tafsir (db : DB) (translation_id : Int) : Bool :=
  db.tafsir_metadata.any (fun m => decide (m.translation_id = translation_id))

/-- `AltafsirImporter.import_tafsir_metadata`
(src/import_altafsir_data.py:242-271): `INSERT OR REPLACE INTO
tafsir_metadata` keyed on the `translation_id` primary key. -/
def import_tafsir_metadata (db : DB) (data : TafsirData) (file_path : String) : DB :=
  let meta := data.meta
  let mrow : MetaRow :=
    { translation_id := meta.tid
      name := meta.tn
      author := meta.au.getD "Unknown"
      language_code := meta.lang
      description := "Imported from altafsir.com - " ++ meta.tn
      source_url := meta.source_url.getD "https://www.altafsir.com"
      total_verses := data.vs.length
      file_path := file_path }
  { db with
    tafsir_metadata :=
      db.tafsir_metadata.filter (fun m => !decide (m.translation_id = meta.tid)) ++ [mrow] }

/-- Python `not text.strip()` (the blank-text test at
src/import_altafsir_data.py:314): true iff the string has no non-whitespace
character, i.e. stripping leaves it empty. -/
def stripIsEmpty (s : String) : Bool :=
  s.data.all Char.isWhitespace

/-- The verse tuple built at src/import_altafsir_data.py:321-332 for one
non-blank `vs` entry. -/
def mkRow (hashFn : String → String) (meta : Meta) (verse_key : String)
    (vd : VerseEntry) : Row :=
  { verse_key := verse_key
    chapter_number := vd.c
    verse_number := vd.n
    translation_id := meta.tid
    translation_name := meta.tn
    author_name := meta.au.getD "Unknown"
    language_code := meta.lang
    text := vd.tf_t
    resource_type := "tafsir"
    data_hash := hashFn vd.tf_t }

/-- `AltafsirImporter.import_verses_batch`
(src/import_altafsir_data.py:273-296): on success the whole batch is
upserted and committed and `imported = cursor.rowcount = len(batch)`; on a
store error the transaction is rolled back (store unchanged) and
`skipped = len(batch)`. Whether the store raises is supplied by the `fail`
argument. Returns the store and `(imported, skipped)`. -/
def import_verses_batch (fail : Bool) (db : DB) (batch : List Row) :
    DB × Nat × Nat :=
  if fail then (db, 0, batch.length)
  else ({ db with rows := upsertMany db.rows batch }, batch.length, 0)

/-- The `for verse_key, verse_data in verses.items()` loop of
`AltafsirImporter.import_tafsir_verses` (src/import_altafsir_data.py:310-356),
with the pending batch, the index of the next batch to flush (feeding the
failure oracle `fails`), the store, and the running totals as explicit
state. A record whose text is blank after stripping is counted skipped and
never enters the batch; the batch is flushed once it reaches `batchSize`,
and the remainder is flushed after the loop. -/
def importVersesLoop (hashFn : String → String) (fails : Nat → Bool)
    (batchSize : Nat) (meta : Meta) :
    List (String × VerseEntry) → List Row → Nat → DB → Nat → Nat →
    DB × Nat × Nat
  | [], batch, batchIdx, db, imp, skp =>
    if batch.isEmpty then (db, imp, skp)
    else
      let r := import_verses_batch (fails batchIdx) db batch
      (r.1, imp + r.2.1, skp + r.2.2)
  | (verse_key, vd) :: rest, batch, batchIdx, db, imp, skp =>
    if stripIsEmpty vd.tf_t then
      importVersesLoop hashFn fails batchSize meta rest batch batchIdx db imp (skp + 1)
    else
      let batch' := batch ++ [mkRow hashFn meta verse_key vd]
      if batchSize ≤ batch'.length then
        let r := import_verses_batch (fails batchIdx) db batch'
        importVersesLoop hashFn fails batchSize meta rest [] (batchIdx + 1)
          r.1 (imp + r.2.1) (skp + r.2.2)
      else
        importVersesLoop hashFn fails batchSize meta rest batch' batchIdx db imp skp

/-- `AltafsirImporter.import_tafsir_verses`
(src/import_altafsir_data.py:298-359): runs the verse loop from an empty
batch with zero totals; returns the store and
`(total_imported, total_skipped)`. -/
def import_tafsir_verses (hashFn : String → String) (fails : Nat → Bool)
    (batchSize : Nat) (db : DB) (data : TafsirData) : DB × Nat × Nat :=
  importVersesLoop hashFn fails batchSize data.meta data.vs [] 0 db 0 0

/-- `AltafsirImporter.log_import_result`
(src/import_altafsir_data.py:361-377): appends one row to `import_log`. -/
def log_import_result (db : DB) (file_path : String) (translation_id : Int)
    (imported skipped : Nat) (status : String) (error_message : Option String) :
    DB :=
  { db with
    import_log := db.import_log ++
      [{ file_path := file_path
         translation_id := translation_id
         verses_imported := imported
         verses_skipped := skipped
         status := status
         error_message := error_message }] }

/-- `AltafsirImporter.import_tafsir_file`
(src/import_altafsir_data.py:379-438) on a document that passed
`validate_tafsir_file` (a well-typed `TafsirData` always does: the required
keys exist by construction). If the edition already has a metadata row and
`force_reimport` is false, one `import_log` row with status `skipped` and
counts `(0, 0)` is written and the function returns `True` without touching
the other tables; otherwise metadata is upserted, the verses imported, and
a `completed` log row written with the verse counts. Returns the store and
the boolean result. -/
def import_tafsir_file (hashFn : String → String) (fails : Nat → Bool)
    (batchSize : Nat) (db : DB) (file_path : String) (data : TafsirData)
    (force_reimport : Bool) : DB × Bool :=
  let translation_id := data.meta.tid
  if !force_reimport && check_existing_tafsir db translation_id then
    (log_import_result db file_path translation_id 0 0 "skipped"
      (some "Already imported"), true)
  else
    let db1 := import_tafsir_metadata db data file_path
    let r := import_tafsir_verses hashFn fails batchSize db1 data
    (log_import_result r.1 file_path translation_id r.2.1 r.2.2 "completed" none,
      true)

/-- The importer's progress dict (src/import_altafsir_data.py:89):
`{"processed_files": [], "failed_files": [], "last_file": None}`. -/
structure ProgressData where
  processed_files : List String
  failed_files : List String
  last_file : Option String
deriving DecidableEq, Repr

def defaultProgress : ProgressData := ⟨[], [], none⟩

/-- `AltafsirImporter.load_progress` (src/import_altafsir_data.py:81-89).
The file-system outcome is the argument: `none` when the progress file does
not exist, `some (.error e)` when opening or JSON-decoding raises (caught
and logged), `some (.ok p)` when it parses. Every failure path falls
through to the default dict; the function never raises. -/
def load_progress : Option (Except String ProgressData) → ProgressData
  | some (Except.ok p) => p
  | some (Except.error _) => defaultProgress
  | none => defaultProgress

/-- `AltafsirImporter.save_progress` (src/import_altafsir_data.py:91-97):
the `json.dump` outcome is the argument. A write error is caught inside the
function and logged (`logger.error`); the function always returns normally.
Result: (what the caller observes, the log lines emitted). -/
def save_progress (writeResult : Except String Unit) :
    Except String Unit × List String :=
  match writeResult with
  | Except.ok _ => (Except.ok (), [])
  | Except.error e => (Except.ok (), ["Could not save progress: " ++ e])

end AltafsirImporter

/-! ## Derived views of the verse import used to state its properties -/

namespace AltafsirImporter

/-- The rows the verse loop accepts into batches, in document order: one
per `vs` entry with non-blank text. Derived characterisation of the loop,
proved against it below. -/
def acceptedList (hashFn : String → String) (meta : Meta)
    (entries : List (String × VerseEntry)) : List Row :=
  entries.filterMap fun p =>
    if stripIsEmpty p.2.tf_t then none else some (mkRow hashFn meta p.1 p.2)

def acceptedRows (hashFn : String → String) (data : TafsirData) : List Row :=
  acceptedList hashFn data.meta data.vs

/-- The number of `vs` entries skipped for blank text. -/
def blankCountL (entries : List (String × VerseEntry)) : Nat :=
  (entries.filter fun p => stripIsEmpty p.2.tf_t).length

def blankCount (data : TafsirData) : Nat := blankCountL data.vs

/-- Worker for `chunksOf`, structurally recursive on a fuel bounded below
by the list length (so that chunk computations reduce definitionally). -/
def chunksGo {α : Type} (n : Nat) : Nat → List α → List (List α)
  | _, [] => []
  | 0, l => [l]
  | fuel + 1, x :: xs =>
    if n = 0 then [x :: xs]
    else (x :: xs.take (n - 1)) :: chunksGo n fuel (xs.drop (n - 1))

/-- Split a list into consecutive chunks of size `n` (the last one possibly
shorter); for `n = 0` the whole list is one chunk. -/
def chunksOf {α : Type} (n : Nat) (l : List α) : List (List α) :=
  chunksGo n l.length l

theorem chunksGo_congr {α : Type} (n : Nat) :
    ∀ (fuel : Nat) (l : List α), l.length ≤ fuel → ∀ (fuel' : Nat),
      l.length ≤ fuel' → chunksGo n fuel l = chunksGo n fuel' l := by
  intro fuel
  induction fuel with
  | zero =>
    intro l hl fuel' _
    cases l with
    | nil => cases fuel' <;> rfl
    | cons x xs => simp at hl
  | succ f ih =>
    intro l hl fuel' hl'
    cases l with
    | nil => cases fuel' <;> rfl
    | cons x xs =>
      cases fuel' with
      | zero => simp at hl'
      | succ f' =>
        simp only [chunksGo]
        by_cases hn : n = 0
        · simp [hn]
        · simp only [hn, if_false]
          congr 1
          have hd : (xs.drop (n - 1)).length ≤ f := by
            simp only [List.length_drop]
            simp only [List.length_cons] at hl
            omega
          have hd' : (xs.drop (n - 1)).length ≤ f' := by
            simp only [List.length_drop]
            simp only [List.length_cons] at hl'
            omega
          exact ih _ hd _ hd'

theorem chunksOf_nil {α : Type} (n : Nat) : chunksOf n ([] : List α) = [] := rfl

theorem chunksOf_cons {α : Type} (n : Nat) (x : α) (xs : List α) :
    chunksOf n (x :: xs)
      = if n = 0 then [x :: xs]
        else (x :: xs.take (n - 1)) :: chunksOf n (xs.drop (n - 1)) := by
  show chunksGo n (xs.length + 1) (x :: xs) = _
  rw [chunksGo]
  by_cases hn : n = 0
  · simp [hn]
  · simp only [hn, if_false]
    congr 1
    exact chunksGo_congr n xs.length (xs.drop (n - 1))
      (by simp only [List.length_drop]; omega) _ (Nat.le_refl _)

/-- The batches the verse loop flushes, in order: the accepted rows in
chunks of `batchSize`. -/
def acceptedChunks (hashFn : String → String) (batchSize : Nat)
    (data : TafsirData) : List (List Row) :=
  chunksOf batchSize (acceptedRows hashFn data)

/-- Flush a list of batches in order through `import_verses_batch`,
accumulating the totals: the batch-level skeleton of the verse loop. -/
def processChunks (fails : Nat → Bool) :
    List (List Row) → Nat → DB → Nat → Nat → DB × Nat × Nat
  | [], _, db, imp, skp => (db, imp, skp)
  | c :: rest, idx, db, imp, skp =>
    let r := import_verses_batch (fails idx) db c
    processChunks fails rest (idx + 1) r.1 (imp + r.2.1) (skp + r.2.2)

/-- The concatenation of the batches whose flush succeeds. -/
def flatSucc (fails : Nat → Bool) : Nat → List (List Row) → List Row
  | _, [] => []
  | idx, c :: rest => (if fails idx then [] else c) ++ flatSucc fails (idx + 1) rest

/-- The total size of the batches whose flush fails. -/
def failSum (fails : Nat → Bool) : Nat → List (List Row) → Nat
  | _, [] => 0
  | idx, c :: rest =>
    (if fails idx then c.length else 0) + failSum fails (idx + 1) rest

theorem chunksOf_small {α : Type} {n : Nat} {l : List α} (hn : n ≠ 0)
    (hne : l ≠ []) (hlen : l.length ≤ n) : chunksOf n l = [l] := by
  cases l with
  | nil => exact absurd rfl hne
  | cons x xs =>
    rw [chunksOf_cons, if_neg hn]
    have hxs : xs.length ≤ n - 1 := by
      have := List.length_cons x xs ▸ hlen
      omega
    rw [List.take_of_length_le hxs, List.drop_of_length_le hxs, chunksOf_nil]

theorem chunksOf_append {α : Type} {n : Nat} {c : List α} (r : List α)
    (hn : n ≠ 0) (hc : c.length = n) :
    chunksOf n (c ++ r) = c :: chunksOf n r := by
  cases c with
  | nil => simp at hc; omega
  | cons x xs =>
    have hxs : xs.length = n - 1 := by
      have := List.length_cons x xs ▸ hc
      omega
    rw [List.cons_append, chunksOf_cons, if_neg hn,
      @List.take_left' _ xs r (n - 1) hxs, @List.drop_left' _ xs r (n - 1) hxs]

theorem chunksOf_flatten {α : Type} (n : Nat) (l : List α) :
    (chunksOf n l).flatten = l := by
  generalize hm : l.length = m
  induction m using Nat.strong_induction_on generalizing l with
  | _ m ih =>
    cases l with
    | nil => rw [chunksOf_nil]; rfl
    | cons x xs =>
      by_cases hn : n = 0
      · subst hn
        rw [chunksOf_cons, if_pos rfl]
        simp
      · rw [chunksOf_cons, if_neg hn, List.flatten_cons]
        have hdrop : (xs.drop (n - 1)).length < m := by
          rw [← hm]
          simp only [List.length_drop, List.length_cons]
          omega
        rw [ih _ hdrop _ rfl, List.cons_append, List.take_append_drop]

theorem flatSucc_length_add_failSum (fails : Nat → Bool) :
    ∀ (cs : List (List Row)) (idx : Nat),
      (flatSucc fails idx cs).length + failSum fails idx cs
        = cs.flatten.length := by
  intro cs
  induction cs with
  | nil => intro idx; rfl
  | cons c rest ih =>
    intro idx
    have hr := ih (idx + 1)
    by_cases h : fails idx <;>
      simp only [flatSucc, failSum, h, if_true, if_false, Bool.false_eq_true,
        List.nil_append, List.flatten_cons, List.length_append] <;>
      omega

theorem flatSucc_sublist_flatten (fails : Nat → Bool) :
    ∀ (cs : List (List Row)) (idx : Nat),
      (flatSucc fails idx cs).Sublist cs.flatten := by
  intro cs
  induction cs with
  | nil => intro idx; exact List.Sublist.refl _
  | cons c rest ih =>
    intro idx
    by_cases h : fails idx
    · simp only [flatSucc, h, if_true, List.nil_append, List.flatten_cons]
      exact List.Sublist.trans (ih (idx + 1)) (List.sublist_append_right _ _)
    · simp only [flatSucc, h, if_false, Bool.false_eq_true, List.flatten_cons]
      exact List.Sublist.append_left (ih (idx + 1)) c

theorem flatSucc_of_no_fail (fails : Nat → Bool) :
    ∀ (cs : List (List Row)) (idx : Nat),
      (∀ i, fails i = false) → flatSucc fails idx cs = cs.flatten := by
  intro cs
  induction cs with
  | nil => intro idx _; rfl
  | cons c rest ih =>
    intro idx hf
    simp only [flatSucc, hf idx, if_false, Bool.false_eq_true, List.flatten_cons,
      ih (idx + 1) hf]

theorem acceptedList_nil (hashFn : String → String) (meta : Meta) :
    acceptedList hashFn meta [] = [] := rfl

theorem acceptedList_cons_blank (hashFn : String → String) (meta : Meta)
    (p : String × VerseEntry) (rest : List (String × VerseEntry))
    (h : stripIsEmpty p.2.tf_t = true) :
    acceptedList hashFn meta (p :: rest) = acceptedList hashFn meta rest := by
  simp only [acceptedList, List.filterMap_cons, h, if_true]

theorem acceptedList_cons_text (hashFn : String → String) (meta : Meta)
    (p : String × VerseEntry) (rest : List (String × VerseEntry))
    (h : stripIsEmpty p.2.tf_t = false) :
    acceptedList hashFn meta (p :: rest)
      = mkRow hashFn meta p.1 p.2 :: acceptedList hashFn meta rest := by
  simp only [acceptedList, List.filterMap_cons, h, Bool.false_eq_true, if_false]

theorem blankCountL_cons (p : String × VerseEntry)
    (rest : List (String × VerseEntry)) :
    blankCountL (p :: rest)
      = (if stripIsEmpty p.2.tf_t then 1 else 0) + blankCountL rest := by
  by_cases h : stripIsEmpty p.2.tf_t <;>
    simp [blankCountL, List.filter_cons, h] <;> omega

/-- The verse loop is the chunked batch pipeline: starting from a pending
batch shorter than `batchSize`, it flushes exactly the chunks of
`batch ++ acceptedList` of size `batchSize`, in order, and adds the number
of blank-skipped entries to the skip total. -/
theorem importVersesLoop_eq_processChunks (hashFn : String → String)
    (fails : Nat → Bool) {bs : Nat} (hbs : bs ≠ 0) (meta : Meta) :
    ∀ (entries : List (String × VerseEntry)) (batch : List Row) (idx : Nat)
      (db : DB) (imp skp : Nat), batch.length < bs →
      importVersesLoop hashFn fails bs meta entries batch idx db imp skp
        = processChunks fails (chunksOf bs (batch ++ acceptedList hashFn meta entries))
            idx db imp (skp + blankCountL entries) := by
  intro entries
  induction entries with
  | nil =>
    intro batch idx db imp skp hlen
    rw [acceptedList_nil, List.append_nil]
    cases batch with
    | nil =>
      simp [importVersesLoop, chunksOf_nil, processChunks, blankCountL]
    | cons b bt =>
      rw [chunksOf_small hbs (List.cons_ne_nil b bt) (Nat.le_of_lt hlen)]
      simp [importVersesLoop, processChunks, blankCountL]
  | cons p rest ih =>
    intro batch idx db imp skp hlen
    obtain ⟨verse_key, vd⟩ := p
    by_cases hblank : stripIsEmpty vd.tf_t
    · rw [acceptedList_cons_blank hashFn meta _ _ hblank]
      have hcount : skp + blankCountL ((verse_key, vd) :: rest)
          = (skp + 1) + blankCountL rest := by
        rw [blankCountL_cons]
        simp only [hblank, if_true]
        omega
      rw [hcount, ← ih batch idx db imp (skp + 1) hlen]
      simp only [importVersesLoop, hblank, if_true]
    · rw [acceptedList_cons_text hashFn meta _ _ (by simpa using hblank)]
      have hassoc : batch ++ mkRow hashFn meta verse_key vd :: acceptedList hashFn meta rest
          = (batch ++ [mkRow hashFn meta verse_key vd]) ++ acceptedList hashFn meta rest := by
        simp
      rw [hassoc]
      by_cases hflush : bs ≤ (batch ++ [mkRow hashFn meta verse_key vd]).length
      · have hfull : (batch ++ [mkRow hashFn meta verse_key vd]).length = bs := by
          simp only [List.length_append, List.length_cons, List.length_nil]
          simp only [List.length_append, List.length_singleton] at hflush
          omega
        rw [chunksOf_append _ hbs hfull]
        have hnil : ([] : List Row).length < bs := by
          simp only [List.length_nil]
          exact Nat.pos_of_ne_zero hbs
        simp only [importVersesLoop, hblank, Bool.false_eq_true, if_false,
          if_pos hflush, processChunks]
        rw [ih [] (idx + 1) _ _ _ hnil, List.nil_append]
        congr 1
        rw [blankCountL_cons]
        simp only [hblank, Bool.false_eq_true, if_false]
        omega
      · have hlt : (batch ++ [mkRow hashFn meta verse_key vd]).length < bs :=
          Nat.lt_of_not_le hflush
        have hcount : blankCountL ((verse_key, vd) :: rest) = blankCountL rest := by
          rw [blankCountL_cons]
          simp only [hblank, Bool.false_eq_true, if_false]
          omega
        rw [hcount, ← ih (batch ++ [mkRow hashFn meta verse_key vd]) idx db imp skp hlt]
        simp only [importVersesLoop, hblank, Bool.false_eq_true, if_false,
          if_neg hflush]

theorem processChunks_fst (fails : Nat → Bool) :
    ∀ (cs : List (List Row)) (idx : Nat) (db : DB) (imp skp : Nat),
      (processChunks fails cs idx db imp skp).1
        = { db with rows := upsertMany db.rows (flatSucc fails idx cs) } := by
  intro cs
  induction cs with
  | nil => intro idx db imp skp; rfl
  | cons c rest ih =>
    intro idx db imp skp
    by_cases h : fails idx
    · simp only [processChunks, import_verses_batch, h, if_true, flatSucc,
        List.nil_append, ih]
    · simp only [processChunks, import_verses_batch, h, Bool.false_eq_true,
        if_false, flatSucc, ih]
      simp only [upsertMany, List.foldl_append]

theorem processChunks_imported (fails : Nat → Bool) :
    ∀ (cs : List (List Row)) (idx : Nat) (db : DB) (imp skp : Nat),
      (processChunks fails cs idx db imp skp).2.1
        = imp + (flatSucc fails idx cs).length := by
  intro cs
  induction cs with
  | nil => intro idx db imp skp; simp [processChunks, flatSucc]
  | cons c rest ih =>
    intro idx db imp skp
    by_cases h : fails idx <;>
      simp only [processChunks, import_verses_batch, h, if_true,
        Bool.false_eq_true, if_false, flatSucc, List.nil_append,
        List.length_append, ih] <;>
      omega

theorem processChunks_skipped (fails : Nat → Bool) :
    ∀ (cs : List (List Row)) (idx : Nat) (db : DB) (imp skp : Nat),
      (processChunks fails cs idx db imp skp).2.2
        = skp + failSum fails idx cs := by
  intro cs
  induction cs with
  | nil => intro idx db imp skp; simp [processChunks, failSum]
  | cons c rest ih =>
    intro idx db imp skp
    by_cases h : fails idx <;>
      simp only [processChunks, import_verses_batch, h, if_true,
        Bool.false_eq_true, if_false, failSum, ih] <;>
      omega

/-! Membership in the upserted row list. -/

theorem mem_upsertRow_self (rows : List Row) (t : Row) : t ∈ upsertRow rows t := by
  simp [upsertRow]

theorem mem_upsertRow_of_key_ne {rows : List Row} {t r : Row} (hr : r ∈ rows)
    (hk : rowKey r ≠ rowKey t) : r ∈ upsertRow rows t := by
  apply List.mem_append_left
  exact List.mem_filter.mpr ⟨hr, by simp [hk]⟩

theorem mem_of_mem_upsertRow {rows : List Row} {t r : Row}
    (h : r ∈ upsertRow rows t) : r ∈ rows ∨ r = t := by
  rcases List.mem_append.mp h with h1 | h1
  · exact Or.inl (List.mem_filter.mp h1).1
  · exact Or.inr (List.mem_singleton.mp h1)

theorem mem_upsertMany_of_mem_left {batch : List Row} :
    ∀ {rows : List Row} {r : Row}, r ∈ rows →
      (∀ t ∈ batch, rowKey r ≠ rowKey t) → r ∈ upsertMany rows batch := by
  induction batch with
  | nil => intro rows r hr _; exact hr
  | cons t rest ih =>
    intro rows r hr hk
    exact ih (mem_upsertRow_of_key_ne hr (hk t (List.mem_cons_self _ _)))
      fun u hu => hk u (List.mem_cons_of_mem _ hu)

theorem mem_upsertMany_of_mem_batch {batch : List Row} :
    ∀ {rows : List Row} {r : Row}, r ∈ batch →
      (batch.map rowKey).Nodup → r ∈ upsertMany rows batch := by
  induction batch with
  | nil => intro rows r hr _; exact absurd hr (List.not_mem_nil r)
  | cons t rest ih =>
    intro rows r hr hnd
    rcases List.mem_cons.mp hr with h1 | h1
    · subst h1
      have step : r ∈ upsertMany (upsertRow rows r) rest := by
        refine mem_upsertMany_of_mem_left (mem_upsertRow_self rows r) ?_
        intro u hu hku
        have : rowKey r ∈ rest.map rowKey := hku ▸ List.mem_map_of_mem rowKey hu
        exact (List.nodup_cons.mp (by simpa using hnd)).1 this
      exact step
    · have step : r ∈ upsertMany (upsertRow rows t) rest :=
        ih h1 (List.nodup_cons.mp (by simpa using hnd)).2
      exact step

theorem mem_of_mem_upsertMany {batch : List Row} :
    ∀ {rows : List Row} {r : Row}, r ∈ upsertMany rows batch →
      r ∈ rows ∨ r ∈ batch := by
  induction batch with
  | nil => intro rows r hr; exact Or.inl hr
  | cons t rest ih =>
    intro rows r hr
    rcases ih hr with h1 | h1
    · rcases mem_of_mem_upsertRow h1 with h2 | h2
      · exact Or.inl h2
      · exact Or.inr (h2 ▸ List.mem_cons_self _ _)
    · exact Or.inr (List.mem_cons_of_mem _ h1)

/-- The failure oracle that fails exactly the batch with index `k`. -/
def singleFail (k : Nat) : Nat → Bool := fun i => decide (i = k)

theorem failSum_eq_zero_of_lt (k : Nat) :
    ∀ (cs : List (List Row)) (idx : Nat), k < idx →
      failSum (singleFail k) idx cs = 0 := by
  intro cs
  induction cs with
  | nil => intro idx _; rfl
  | cons c rest ih =>
    intro idx hk
    have h1 : singleFail k idx = false := by
      simp only [singleFail, decide_eq_false_iff_not]
      omega
    simp only [failSum, h1, Bool.false_eq_true, if_false,
      ih (idx + 1) (Nat.lt_succ_of_lt hk)]

theorem failSum_singleFail :
    ∀ (cs : List (List Row)) (idx j : Nat) (hj : j < cs.length),
      failSum (singleFail (idx + j)) idx cs = (cs.get ⟨j, hj⟩).length := by
  intro cs
  induction cs with
  | nil => intro idx j hj; exact absurd hj (by simp)
  | cons c rest ih =>
    intro idx j hj
    cases j with
    | zero =>
      have h1 : singleFail (idx + 0) idx = true := by simp [singleFail]
      simp only [failSum, h1, if_true, List.get]
      rw [failSum_eq_zero_of_lt (idx + 0) rest (idx + 1) (by omega)]
      omega
    | succ j =>
      have h1 : singleFail (idx + (j + 1)) idx = false := by
        simp only [singleFail, decide_eq_false_iff_not]
        omega
      have harith : idx + (j + 1) = (idx + 1) + j := by omega
      simp only [failSum, h1, Bool.false_eq_true, if_false, Nat.zero_add,
        List.get]
      rw [harith]
      exact ih (idx + 1) j (Nat.lt_of_succ_lt_succ (by simpa using hj))

theorem mem_flatSucc_of_get (fails : Nat → Bool) :
    ∀ (cs : List (List Row)) (idx j : Nat) (hj : j < cs.length),
      fails (idx + j) = false →
      ∀ r ∈ cs.get ⟨j, hj⟩, r ∈ flatSucc fails idx cs := by
  intro cs
  induction cs with
  | nil => intro idx j hj; exact absurd hj (by simp)
  | cons c rest ih =>
    intro idx j hj hf r hr
    cases j with
    | zero =>
      have h0 : fails idx = false := by simpa using hf
      simp only [flatSucc, h0, Bool.false_eq_true, if_false]
      exact List.mem_append_left _ (by simpa [List.get] using hr)
    | succ j =>
      apply List.mem_append_right
      have harith : idx + (j + 1) = (idx + 1) + j := by omega
      exact ih (idx + 1) j (Nat.lt_of_succ_lt_succ (by simpa using hj))
        (harith ▸ hf) r (by simpa [List.get] using hr)

theorem get_mem_flatten {cs : List (List Row)} {j : Nat} (hj : j < cs.length)
    {r : Row} (hr : r ∈ cs.get ⟨j, hj⟩) : r ∈ cs.flatten :=
  List.mem_flatten.mpr ⟨cs.get ⟨j, hj⟩, List.get_mem cs j hj, hr⟩

theorem key_not_mem_flatSucc_of_failed (fails : Nat → Bool) :
    ∀ (cs : List (List Row)), (cs.flatten.map rowKey).Nodup →
      ∀ (idx j : Nat) (hj : j < cs.length), fails (idx + j) = true →
      ∀ r ∈ cs.get ⟨j, hj⟩,
        rowKey r ∉ (flatSucc fails idx cs).map rowKey := by
  intro cs
  induction cs with
  | nil => intro _ idx j hj; exact absurd hj (by simp)
  | cons c rest ih =>
    intro hnd idx j hj hf r hr
    have hnd' : ((c.map rowKey) ++ (rest.flatten.map rowKey)).Nodup := by
      simpa [List.flatten_cons] using hnd
    have hdisj := (List.nodup_append.mp hnd').2.2
    cases j with
    | zero =>
      have h0 : fails idx = true := by simpa using hf
      have hrc : rowKey r ∈ c.map rowKey :=
        List.mem_map_of_mem rowKey (by simpa [List.get] using hr)
      simp only [flatSucc, h0, if_true, List.nil_append]
      intro hmem
      have hsub : (flatSucc fails (idx + 1) rest).map rowKey
          |>.Sublist (rest.flatten.map rowKey) :=
        List.Sublist.map rowKey (flatSucc_sublist_flatten fails rest (idx + 1))
      exact hdisj hrc (hsub.mem hmem)
    | succ j =>
      have hrr : r ∈ rest.get ⟨j, Nat.lt_of_succ_lt_succ (by simpa using hj)⟩ :=
        by simpa [List.get] using hr
      have hrflat : rowKey r ∈ rest.flatten.map rowKey :=
        List.mem_map_of_mem rowKey (get_mem_flatten _ hrr)
      have harith : idx + (j + 1) = (idx + 1) + j := by omega
      simp only [flatSucc, List.map_append]
      intro hmem
      rcases List.mem_append.mp hmem with h1 | h1
      · by_cases hc : fails idx
        · simp [hc] at h1
        · simp only [hc, Bool.false_eq_true, if_false] at h1
          obtain ⟨a, ha, hak⟩ := List.mem_map.mp h1
          exact hdisj (hak ▸ List.mem_map_of_mem rowKey ha) hrflat
      · exact ih (List.nodup_append.mp hnd').2.1 (idx + 1) j
          (Nat.lt_of_succ_lt_succ (by simpa using hj)) (harith ▸ hf) r hrr h1

theorem acceptedList_verse_key_sublist (hashFn : String → String) (meta : Meta) :
    ∀ entries : List (String × VerseEntry),
      ((acceptedList hashFn meta entries).map Row.verse_key).Sublist
        (entries.map Prod.fst) := by
  intro entries
  induction entries with
  | nil => exact List.Sublist.refl _
  | cons p rest ih =>
    by_cases h : stripIsEmpty p.2.tf_t
    · rw [acceptedList_cons_blank hashFn meta p rest h, List.map_cons]
      exact List.Sublist.cons p.1 ih
    · rw [acceptedList_cons_text hashFn meta p rest (by simpa using h),
        List.map_cons, List.map_cons]
      exact List.Sublist.cons₂ p.1 ih

theorem mem_acceptedList {hashFn : String → String} {meta : Meta}
    {entries : List (String × VerseEntry)} {r : Row}
    (hr : r ∈ acceptedList hashFn meta entries) :
    ∃ p ∈ entries, stripIsEmpty p.2.tf_t = false ∧ r = mkRow hashFn meta p.1 p.2 := by
  obtain ⟨p, hp, hif⟩ := List.mem_filterMap.mp hr
  by_cases h : stripIsEmpty p.2.tf_t
  · rw [if_pos h] at hif
    exact absurd hif (by simp)
  · rw [if_neg h] at hif
    exact ⟨p, hp, by simpa using h, (Option.some_inj.mp hif).symm⟩

theorem acceptedList_translation_id {hashFn : String → String} {meta : Meta}
    {entries : List (String × VerseEntry)} {r : Row}
    (hr : r ∈ acceptedList hashFn meta entries) : r.translation_id = meta.tid := by
  obtain ⟨p, _, _, hr'⟩ := mem_acceptedList hr
  rw [hr']
  rfl

theorem acceptedList_rowKey_nodup (hashFn : String → String) (meta : Meta)
    (entries : List (String × VerseEntry))
    (hnd : (entries.map Prod.fst).Nodup) :
    ((acceptedList hashFn meta entries).map rowKey).Nodup := by
  have h1 : ((acceptedList hashFn meta entries).map Row.verse_key).Nodup :=
    hnd.sublist (acceptedList_verse_key_sublist hashFn meta entries)
  have h2 : (((acceptedList hashFn meta entries).map rowKey).map Prod.fst).Nodup := by
    rw [List.map_map]
    exact h1
  exact h2.of_map

/-- `import_tafsir_verses` is `processChunks` over the accepted chunks: the
top-level corollary of `importVersesLoop_eq_processChunks`. -/
theorem import_tafsir_verses_eq_processChunks (hashFn : String → String)
    (fails : Nat → Bool) {bs : Nat} (hbs : bs ≠ 0) (db : DB) (data : TafsirData) :
    import_tafsir_verses hashFn fails bs db data
      = processChunks fails (acceptedChunks hashFn bs data) 0 db 0
          (blankCount data) := by
  have h0 : ([] : List Row).length < bs := by
    simp only [List.length_nil]
    exact Nat.pos_of_ne_zero hbs
  unfold import_tafsir_verses
  rw [importVersesLoop_eq_processChunks hashFn fails hbs data.meta data.vs
    [] 0 db 0 0 h0, List.nil_append, Nat.zero_add]
  rfl

/-- C3: if a store error occurs while inserting one batch (batch `k`) during
the verse import, only that batch is rolled back: every record of the failed
batch is counted as skipped and none as imported (imported is the total
accepted minus the failed batch, skipped is the blank count plus the failed
batch), rows of every other batch are present in the store, no row of the
failed batch reaches the store, pre-existing rows survive, and the loader
continues with the batches after `k` instead of aborting the document. -/
theorem import_batch_failure_isolated (hashFn : String → String) {bs : Nat}
    (k : Nat) (db : DB) (data : TafsirData)
    (hbs : bs ≠ 0)
    (hnd : (data.vs.map Prod.fst).Nodup)
    (hdb : ∀ r ∈ db.rows, r.translation_id ≠ data.meta.tid)
    (hk : k < (acceptedChunks hashFn bs data).length) :
    (import_tafsir_verses hashFn (singleFail k) bs db data).2.1
        = (acceptedRows hashFn data).length
          - ((acceptedChunks hashFn bs data).get ⟨k, hk⟩).length
    ∧ (import_tafsir_verses hashFn (singleFail k) bs db data).2.2
        = blankCount data + ((acceptedChunks hashFn bs data).get ⟨k, hk⟩).length
    ∧ (∀ (j : Nat) (hj : j < (acceptedChunks hashFn bs data).length), j ≠ k →
        ∀ r ∈ (acceptedChunks hashFn bs data).get ⟨j, hj⟩,
          r ∈ (import_tafsir_verses hashFn (singleFail k) bs db data).1.rows)
    ∧ (∀ r ∈ (acceptedChunks hashFn bs data).get ⟨k, hk⟩,
        r ∉ (import_tafsir_verses hashFn (singleFail k) bs db data).1.rows)
    ∧ (∀ r ∈ db.rows,
        r ∈ (import_tafsir_verses hashFn (singleFail k) bs db data).1.rows) := by
  have heq := import_tafsir_verses_eq_processChunks hashFn (singleFail k) hbs db data
  have hflat : (acceptedChunks hashFn bs data).flatten = acceptedRows hashFn data :=
    chunksOf_flatten bs (acceptedRows hashFn data)
  have hndA : ((acceptedChunks hashFn bs data).flatten.map rowKey).Nodup := by
    rw [hflat]
    exact acceptedList_rowKey_nodup hashFn data.meta data.vs hnd
  have hfailSum : failSum (singleFail k) 0 (acceptedChunks hashFn bs data)
      = ((acceptedChunks hashFn bs data).get ⟨k, hk⟩).length := by
    have h := failSum_singleFail (acceptedChunks hashFn bs data) 0 k hk
    simpa using h
  have hlen := flatSucc_length_add_failSum (singleFail k)
    (acceptedChunks hashFn bs data) 0
  have hrows : (import_tafsir_verses hashFn (singleFail k) bs db data).1.rows
      = upsertMany db.rows (flatSucc (singleFail k) 0 (acceptedChunks hashFn bs data)) := by
    rw [heq, processChunks_fst]
  have hndflat : ((flatSucc (singleFail k) 0 (acceptedChunks hashFn bs data)).map rowKey).Nodup :=
    hndA.sublist (List.Sublist.map rowKey
      (flatSucc_sublist_flatten (singleFail k) (acceptedChunks hashFn bs data) 0))
  refine ⟨?_, ?_, ?_, ?_, ?_⟩
  · rw [heq, processChunks_imported]
    have hflatlen : (acceptedChunks hashFn bs data).flatten.length
        = (acceptedRows hashFn data).length := by rw [hflat]
    omega
  · rw [heq, processChunks_skipped, hfailSum]
  · intro j hj hjk r hr
    rw [hrows]
    have hfj : singleFail k (0 + j) = false := by
      simp only [singleFail, decide_eq_false_iff_not]
      omega
    exact mem_upsertMany_of_mem_batch
      (mem_flatSucc_of_get (singleFail k) (acceptedChunks hashFn bs data) 0 j hj hfj r hr)
      hndflat
  · intro r hr hmem
    rw [hrows] at hmem
    rcases mem_of_mem_upsertMany hmem with h1 | h1
    · have hacc : r ∈ acceptedRows hashFn data := hflat ▸ get_mem_flatten hk hr
      exact hdb r h1 (acceptedList_translation_id hacc)
    · have hfk : singleFail k (0 + k) = true := by simp [singleFail]
      exact key_not_mem_flatSucc_of_failed (singleFail k)
        (acceptedChunks hashFn bs data) hndA 0 k hk hfk r hr
        (List.mem_map_of_mem rowKey h1)
  · intro r hr
    rw [hrows]
    refine mem_upsertMany_of_mem_left hr ?_
    intro t ht hkeq
    have htacc : t ∈ acceptedRows hashFn data := by
      rw [← hflat]
      exact (flatSucc_sublist_flatten (singleFail k) (acceptedChunks hashFn bs data) 0).mem ht
    have htid : t.translation_id = data.meta.tid := acceptedList_translation_id htacc
    have hrid : r.translation_id = t.translation_id := congrArg Prod.snd hkeq
    exact hdb r hr (hrid.trans htid)

/-- Concrete five-entry document (four non-blank records, one blank) used to
instantiate the batch-failure theorem with `batchSize = 2`. -/
def batchFailData : TafsirData :=
  { meta := { tid := 7001, tn := "Tafsir A", au := none, lang := "arabic",
              source_url := none }
    vs := [("1:1", ⟨1, 1, "alpha"⟩), ("1:2", ⟨1, 2, " "⟩),
           ("1:3", ⟨1, 3, "beta"⟩), ("1:4", ⟨1, 4, "gamma"⟩),
           ("1:5", ⟨1, 5, "delta"⟩)] }

/-- Witness: the batch-failure theorem applied to `batchFailData` with
`batchSize = 2` and batch 0 failing. -/
theorem import_batch_failure_isolated_witness :
    (import_tafsir_verses (fun t => t) (singleFail 0) 2 emptyDB batchFailData).2.1
        = (acceptedRows (fun t => t) batchFailData).length
          - ((acceptedChunks (fun t => t) 2 batchFailData).get ⟨0, by decide⟩).length
    ∧ (import_tafsir_verses (fun t => t) (singleFail 0) 2 emptyDB batchFailData).2.2
        = blankCount batchFailData
          + ((acceptedChunks (fun t => t) 2 batchFailData).get ⟨0, by decide⟩).length
    ∧ (∀ (j : Nat) (hj : j < (acceptedChunks (fun t => t) 2 batchFailData).length),
        j ≠ 0 →
        ∀ r ∈ (acceptedChunks (fun t => t) 2 batchFailData).get ⟨j, hj⟩,
          r ∈ (import_tafsir_verses (fun t => t) (singleFail 0) 2 emptyDB batchFailData).1.rows)
    ∧ (∀ r ∈ (acceptedChunks (fun t => t) 2 batchFailData).get ⟨0, by decide⟩,
        r ∉ (import_tafsir_verses (fun t => t) (singleFail 0) 2 emptyDB batchFailData).1.rows)
    ∧ (∀ r ∈ emptyDB.rows,
        r ∈ (import_tafsir_verses (fun t => t) (singleFail 0) 2 emptyDB batchFailData).1.rows) :=
  import_batch_failure_isolated (fun t => t) 0 emptyDB batchFailData
    (by decide) (by decide) (by decide) (by decide)

/-- Concrete document with ten well-formed verse keys and one malformed key
(`"not-a-key"`, chapter/verse fields 0), all with non-blank text. -/
def malformedKeyData : TafsirData :=
  { meta := { tid := 7002, tn := "Tafsir B", au := some "Author B",
              lang := "english", source_url := none }
    vs := [("1:1", ⟨1, 1, "t one"⟩), ("1:2", ⟨1, 2, "t two"⟩),
           ("1:3", ⟨1, 3, "t three"⟩), ("1:4", ⟨1, 4, "t four"⟩),
           ("1:5", ⟨1, 5, "t five"⟩), ("1:6", ⟨1, 6, "t six"⟩),
           ("1:7", ⟨1, 7, "t seven"⟩), ("2:1", ⟨2, 1, "t eight"⟩),
           ("2:2", ⟨2, 2, "t nine"⟩), ("2:3", ⟨2, 3, "t ten"⟩),
           ("not-a-key", ⟨0, 0, "t eleven"⟩)] }

/-- Counterexample for C4: a document with one malformed verse key among 10
valid ones imports 11 rows, not 10 — the verse loop never parses the key
nor calls the verse-reference validator, so the malformed record (whose
reference (0,0) the validator rejects) is stored too. -/
theorem import_no_key_validation_counterexample :
    (import_tafsir_verses (fun t => t) (fun _ => false) 1000 emptyDB
        malformedKeyData).2.1 = 11
    ∧ (import_tafsir_verses (fun t => t) (fun _ => false) 1000 emptyDB
        malformedKeyData).1.rows.length = 11
    ∧ ((import_tafsir_verses (fun t => t) (fun _ => false) 1000 emptyDB
        malformedKeyData).2.1 = 10 → False)
    ∧ (import_tafsir_verses (fun t => t) (fun _ => false) 1000 emptyDB
        malformedKeyData).1.rows.any (fun r => r.verse_key == "not-a-key") = true
    ∧ ConfigUtils.validate_verse_reference 0 0 = false := by decide

theorem mem_acceptedList_of_nonblank {hashFn : String → String} {meta : Meta}
    {entries : List (String × VerseEntry)} {p : String × VerseEntry}
    (hp : p ∈ entries) (hnb : stripIsEmpty p.2.tf_t = false) :
    mkRow hashFn meta p.1 p.2 ∈ acceptedList hashFn meta entries :=
  List.mem_filterMap.mpr ⟨p, hp, by rw [hnb]; rfl⟩

theorem failSum_of_no_fail {bs : Nat} (hashFn : String → String)
    (data : TafsirData) :
    failSum (fun _ => false) 0 (acceptedChunks hashFn bs data) = 0 := by
  have h1 := flatSucc_length_add_failSum (fun _ => false)
    (acceptedChunks hashFn bs data) 0
  rw [flatSucc_of_no_fail (fun _ => false) (acceptedChunks hashFn bs data) 0
    (fun _ => rfl)] at h1
  omega

/-- C4 (amended): the verse loop accepts every entry whose text is non-blank
after stripping, with no parsing or validation of the verse key: with no
batch failures, imported equals the number of non-blank entries, skipped
equals the number of blank entries, and every non-blank entry's row (valid
key or not) is present in the store afterwards. -/
theorem import_accepts_all_nonblank (hashFn : String → String) {bs : Nat}
    (db : DB) (data : TafsirData) (hbs : bs ≠ 0)
    (hnd : (data.vs.map Prod.fst).Nodup) :
    (import_tafsir_verses hashFn (fun _ => false) bs db data).2.1
        = (acceptedRows hashFn data).length
    ∧ (import_tafsir_verses hashFn (fun _ => false) bs db data).2.2
        = blankCount data
    ∧ ∀ p ∈ data.vs, stripIsEmpty p.2.tf_t = false →
        mkRow hashFn data.meta p.1 p.2
          ∈ (import_tafsir_verses hashFn (fun _ => false) bs db data).1.rows := by
  have heq := import_tafsir_verses_eq_processChunks hashFn (fun _ => false) hbs db data
  have hflat : (acceptedChunks hashFn bs data).flatten = acceptedRows hashFn data :=
    chunksOf_flatten bs (acceptedRows hashFn data)
  have hsucc : flatSucc (fun _ => false) 0 (acceptedChunks hashFn bs data)
      = acceptedRows hashFn data := by
    rw [flatSucc_of_no_fail (fun _ => false) (acceptedChunks hashFn bs data) 0
      (fun _ => rfl), hflat]
  refine ⟨?_, ?_, ?_⟩
  · rw [heq, processChunks_imported, hsucc, Nat.zero_add]
  · rw [heq, processChunks_skipped, failSum_of_no_fail hashFn data]
    omega
  · intro p hp hnb
    rw [heq, processChunks_fst]
    show mkRow hashFn data.meta p.1 p.2
      ∈ upsertMany db.rows (flatSucc (fun _ => false) 0 (acceptedChunks hashFn bs data))
    rw [hsucc]
    exact mem_upsertMany_of_mem_batch (mem_acceptedList_of_nonblank hp hnb)
      (acceptedList_rowKey_nodup hashFn data.meta data.vs hnd)

/-- Witness: the no-key-validation theorem applied to the malformed-key
document. -/
theorem import_accepts_all_nonblank_witness :
    (import_tafsir_verses (fun t => t) (fun _ => false) 1000 emptyDB
        malformedKeyData).2.1 = (acceptedRows (fun t => t) malformedKeyData).length
    ∧ (import_tafsir_verses (fun t => t) (fun _ => false) 1000 emptyDB
        malformedKeyData).2.2 = blankCount malformedKeyData
    ∧ ∀ p ∈ malformedKeyData.vs, stripIsEmpty p.2.tf_t = false →
        mkRow (fun t => t) malformedKeyData.meta p.1 p.2
          ∈ (import_tafsir_verses (fun t => t) (fun _ => false) 1000 emptyDB
              malformedKeyData).1.rows :=
  import_accepts_all_nonblank (fun t => t) emptyDB malformedKeyData
    (by decide) (by decide)

theorem acceptedList_verse_key_ne_of_blank {hashFn : String → String}
    {meta : Meta} {entries : List (String × VerseEntry)} {key : String}
    {vd : VerseEntry} (hnd : (entries.map Prod.fst).Nodup)
    (hmem : (key, vd) ∈ entries) (hblank : stripIsEmpty vd.tf_t = true) :
    ∀ r ∈ acceptedList hashFn meta entries, r.verse_key ≠ key := by
  intro r hr hkey
  obtain ⟨p, hp, hpnb, hr'⟩ := mem_acceptedList hr
  have hp1 : p.1 = key := by rw [hr'] at hkey; exact hkey
  have hpk : p = (key, vd) :=
    List.inj_on_of_nodup_map hnd hp hmem (by simpa using hp1)
  have : stripIsEmpty vd.tf_t = false := by
    have := hpnb
    rw [hpk] at this
    exact this
  rw [this] at hblank
  exact absurd hblank (by simp)

/-- C8: a verse record whose tafsir text is blank after stripping is counted
as skipped, never placed in any insert batch, and no row for its key appears
in the store afterwards (given the store had none before). -/
theorem blank_text_never_stored (hashFn : String → String) {bs : Nat}
    (fails : Nat → Bool) (db : DB) (data : TafsirData)
    (key : String) (vd : VerseEntry)
    (hbs : bs ≠ 0)
    (hnd : (data.vs.map Prod.fst).Nodup)
    (hmem : (key, vd) ∈ data.vs)
    (hblank : stripIsEmpty vd.tf_t = true)
    (hdb : ∀ r ∈ db.rows, ¬(r.verse_key = key ∧ r.translation_id = data.meta.tid)) :
    (∀ batch ∈ acceptedChunks hashFn bs data, ∀ r ∈ batch, r.verse_key ≠ key)
    ∧ (∀ r ∈ (import_tafsir_verses hashFn fails bs db data).1.rows,
        ¬(r.verse_key = key ∧ r.translation_id = data.meta.tid))
    ∧ 1 ≤ blankCount data
    ∧ (import_tafsir_verses hashFn fails bs db data).2.2
        = blankCount data + failSum fails 0 (acceptedChunks hashFn bs data) := by
  have heq := import_tafsir_verses_eq_processChunks hashFn fails hbs db data
  have hflat : (acceptedChunks hashFn bs data).flatten = acceptedRows hashFn data :=
    chunksOf_flatten bs (acceptedRows hashFn data)
  have hne : ∀ r ∈ acceptedRows hashFn data, r.verse_key ≠ key :=
    acceptedList_verse_key_ne_of_blank hnd hmem hblank
  refine ⟨?_, ?_, ?_, ?_⟩
  · intro batch hb r hr
    exact hne r (hflat ▸ List.mem_flatten.mpr ⟨batch, hb, hr⟩)
  · intro r hr
    rw [heq, processChunks_fst] at hr
    rcases mem_of_mem_upsertMany hr with h1 | h1
    · exact hdb r h1
    · have : r ∈ acceptedRows hashFn data := by
        rw [← hflat]
        exact (flatSucc_sublist_flatten fails (acceptedChunks hashFn bs data) 0).mem h1
      intro hc
      exact hne r this hc.1
  · have : (key, vd) ∈ data.vs.filter (fun p => stripIsEmpty p.2.tf_t) :=
      List.mem_filter.mpr ⟨hmem, hblank⟩
    exact List.length_pos_of_mem this
  · rw [heq, processChunks_skipped]

/-- Witness: the blank-text theorem applied to `batchFailData`, whose entry
`("1:2", ⟨1, 2, " "⟩)` has whitespace-only text. -/
theorem blank_text_never_stored_witness :
    (∀ batch ∈ acceptedChunks (fun t => t) 2 batchFailData,
        ∀ r ∈ batch, r.verse_key ≠ "1:2")
    ∧ (∀ r ∈ (import_tafsir_verses (fun t => t) (fun _ => false) 2 emptyDB
          batchFailData).1.rows,
        ¬(r.verse_key = "1:2" ∧ r.translation_id = batchFailData.meta.tid))
    ∧ 1 ≤ blankCount batchFailData
    ∧ (import_tafsir_verses (fun t => t) (fun _ => false) 2 emptyDB
          batchFailData).2.2
        = blankCount batchFailData
          + failSum (fun _ => false) 0 (acceptedChunks (fun t => t) 2 batchFailData) :=
  blank_text_never_stored (fun t => t) (fun _ => false) emptyDB batchFailData
    "1:2" ⟨1, 2, " "⟩ (by decide) (by decide) (by decide) (by decide) (by decide)

/-- C1 (amended): with `force_reimport = false` and the edition's id already
present in `tafsir_metadata`, `import_tafsir_file` takes the skip branch: it
returns `True`, leaves `quran_translations` and `tafsir_metadata` untouched,
and appends one `import_log` row with status `skipped` and counts
`verses_imported = 0, verses_skipped = 0` (the source logs `0, 0`, not the
document's verse count). -/
theorem import_skip_existing (hashFn : String → String) (fails : Nat → Bool)
    (bs : Nat) (db : DB) (fp : String) (data : TafsirData)
    (h : check_existing_tafsir db data.meta.tid = true) :
    import_tafsir_file hashFn fails bs db fp data false
      = (log_import_result db fp data.meta.tid 0 0 "skipped"
          (some "Already imported"), true)
    ∧ (import_tafsir_file hashFn fails bs db fp data false).1.rows = db.rows
    ∧ (import_tafsir_file hashFn fails bs db fp data false).1.tafsir_metadata
        = db.tafsir_metadata
    ∧ (import_tafsir_file hashFn fails bs db fp data false).1.import_log
        = db.import_log ++
          [{ file_path := fp, translation_id := data.meta.tid,
             verses_imported := 0, verses_skipped := 0, status := "skipped",
             error_message := some "Already imported" }] := by
  have hbranch : import_tafsir_file hashFn fails bs db fp data false
      = (log_import_result db fp data.meta.tid 0 0 "skipped"
          (some "Already imported"), true) := by
    simp [import_tafsir_file, h]
  refine ⟨hbranch, ?_, ?_, ?_⟩ <;> rw [hbranch] <;> rfl

/-- The three-verse end-to-end document of the specification scenario. -/
def endToEndData : TafsirData :=
  { meta := { tid := 9001, tn := "Test Tafsir", au := some "Test Author",
              lang := "english", source_url := none }
    vs := [("1:1", ⟨1, 1, "verse one text"⟩), ("1:2", ⟨1, 2, "verse two text"⟩),
           ("1:3", ⟨1, 3, "verse three text"⟩)] }

/-- The store after the first import of the three-verse document. -/
def firstImportDB : DB :=
  (import_tafsir_file (fun t => t) (fun _ => false) 1000 emptyDB
    "test_tafsir.json" endToEndData false).1

/-- The second run of the same document against the resulting store with
`force_reimport = false`. -/
def secondImportRun : DB × Bool :=
  import_tafsir_file (fun t => t) (fun _ => false) 1000 firstImportDB
    "test_tafsir.json" endToEndData false

/-- Counterexample for C1: in the three-verse end-to-end scenario the second
run does skip the whole document with the store still holding 3 rows, but
the logged outcome is `imported = 0, skipped = 0` — not `skipped = 3` as the
claim states. -/
theorem import_skip_log_counterexample :
    firstImportDB.rows.length = 3
    ∧ secondImportRun.1.rows.length = 3
    ∧ secondImportRun.2 = true
    ∧ secondImportRun.1.import_log.getLast?
        = some { file_path := "test_tafsir.json", translation_id := 9001,
                 verses_imported := 0, verses_skipped := 0,
                 status := "skipped", error_message := some "Already imported" }
    ∧ (secondImportRun.1.import_log.getLast?.map LogEntry.verses_skipped
        = some 0)
    ∧ ¬(secondImportRun.1.import_log.getLast?.map LogEntry.verses_skipped
        = some 3) := by decide

/-- Witness: the skip-branch theorem applied to the second run of the
end-to-end scenario. -/
theorem import_skip_existing_witness :
    import_tafsir_file (fun t => t) (fun _ => false) 1000 firstImportDB
        "test_tafsir.json" endToEndData false
      = (log_import_result firstImportDB "test_tafsir.json"
          endToEndData.meta.tid 0 0 "skipped" (some "Already imported"), true)
    ∧ (import_tafsir_file (fun t => t) (fun _ => false) 1000 firstImportDB
        "test_tafsir.json" endToEndData false).1.rows = firstImportDB.rows
    ∧ (import_tafsir_file (fun t => t) (fun _ => false) 1000 firstImportDB
        "test_tafsir.json" endToEndData false).1.tafsir_metadata
        = firstImportDB.tafsir_metadata
    ∧ (import_tafsir_file (fun t => t) (fun _ => false) 1000 firstImportDB
        "test_tafsir.json" endToEndData false).1.import_log
        = firstImportDB.import_log ++
          [{ file_path := "test_tafsir.json",
             translation_id := endToEndData.meta.tid,
             verses_imported := 0, verses_skipped := 0, status := "skipped",
             error_message := some "Already imported" }] :=
  import_skip_existing (fun t => t) (fun _ => false) 1000 firstImportDB
    "test_tafsir.json" endToEndData (by decide)

end AltafsirImporter

/-! ## The scraper (scrape_altafsir_com.py) -/

namespace AltafsirScraper

/-- The scraper's progress dict. The default produced by `load_progress`
(src/scrape_altafsir_com.py:166) is
`{"completed_tafasir": [], "current_tafsir": None, "current_chapter": 1}`;
the `completed_chapters` key is absent there and is read everywhere with
`.get("completed_chapters", [])`, modelled as a field defaulting to `[]`.
`current_tafsir` holds the tafsir id of the edition being scraped (the
source stores the whole `tafsir_info` dict; only its id is compared or
appended anywhere, so the id stands for it). -/
structure Progress where
  completed_tafasir : List Int
  current_tafsir : Option Int
  current_chapter : Int
  completed_chapters : List Nat
deriving DecidableEq, Repr

def defaultProgress : Progress := ⟨[], none, 1, []⟩

/-- `AltafsirScraper.load_progress` (src/scrape_altafsir_com.py:158-166):
`none` = progress file missing, `some (.error e)` = open/JSON-decode raised
(caught, logged), `some (.ok p)` = parsed. Never raises. -/
def load_progress : Option (Except String Progress) → Progress
  | some (Except.ok p) => p
  | some (Except.error _) => defaultProgress
  | none => defaultProgress

/-- `AltafsirScraper.save_progress` (src/scrape_altafsir_com.py:168-174):
the `json.dump` outcome is the argument; a write error is caught inside the
function and logged (`logger.error`), never re-raised. Result: (what the
caller observes, the log lines emitted). -/
def save_progress (writeResult : Except String Unit) :
    Except String Unit × List String :=
  match writeResult with
  | Except.ok _ => (Except.ok (), [])
  | Except.error e => (Except.ok (), ["Could not save progress: " ++ e])

/-- The `for chapter in range(start_chapter, end_chapter + 1)` loop of
`scrape_complete_tafsir` (src/scrape_altafsir_com.py:401-418), restricted to
what it does with chapters and progress: a chapter already in
`completed_chapters` is skipped with no fetch; otherwise `current_chapter`
is set, the chapter's verses are fetched (recorded in the returned trace),
and the chapter is appended to `completed_chapters`. The edition being
scraped (`tafsir_id`, from the `tafsir_info` argument) is threaded through
but never consulted by the loop. Returns (fetched chapters in order, final
progress). -/
def scrapeChaptersLoop (tafsir_id : Int) :
    List Nat → Progress → List Nat × Progress
  | [], p => ([], p)
  | c :: rest, p =>
    if c ∈ p.completed_chapters then scrapeChaptersLoop tafsir_id rest p
    else
      let p1 := { p with current_chapter := (c : Int) }
      let p2 := { p1 with completed_chapters := p1.completed_chapters ++ [c] }
      let r := scrapeChaptersLoop tafsir_id rest p2
      (c :: r.1, r.2)

/-- The chapter range `range(start_chapter, end_chapter + 1)` of
`scrape_complete_tafsir` (defaults 1 and 114). -/
def chapterRange (start_chapter end_chapter : Nat) : List Nat :=
  List.range' start_chapter (end_chapter + 1 - start_chapter)

/-- The chapter-level behaviour of
`AltafsirScraper.scrape_complete_tafsir(tafsir_info, start_chapter,
end_chapter)` (src/scrape_altafsir_com.py:372-442): which chapters are
fetched and how the persisted progress ends up. -/
def scrape_complete_tafsir (tafsir_id : Int) (p : Progress)
    (start_chapter end_chapter : Nat) : List Nat × Progress :=
  scrapeChaptersLoop tafsir_id (chapterRange start_chapter end_chapter) p

/-- HTTP attempt outcomes seen by `fetch_with_retry`, as the loop branches
on them: a 200 with a body, a 404, another status code, a timeout, or a
raised exception. -/
inductive FetchResponse : Type
  | success (content : String)
  | notFound
  | httpStatus (code : Nat)
  | timeout
  | netError (msg : String)
deriving DecidableEq, Repr

/-- One attempt of the `for attempt in range(max_retries)` loop of
`fetch_with_retry` (src/scrape_altafsir_com.py:218-244), with the response
of each attempt supplied by `responses`. A 200 returns the body; a 404
returns `None` immediately (no further attempt); any other status, a
timeout, or an exception falls through to the next attempt; an exhausted
loop returns `None`. Returns (result, number of attempts performed). -/
def fetchLoop (responses : Nat → FetchResponse) :
    Nat → Nat → Option String × Nat
  | attempt, 0 => (none, attempt)
  | attempt, remaining + 1 =>
    match responses attempt with
    | FetchResponse.success content => (some content, attempt + 1)
    | FetchResponse.notFound => (none, attempt + 1)
    | _ => fetchLoop responses (attempt + 1) remaining

/-- `AltafsirScraper.fetch_with_retry(url, max_retries)`
(src/scrape_altafsir_com.py:218-244). -/
def fetch_with_retry (responses : Nat → FetchResponse) (max_retries : Nat) :
    Option String × Nat :=
  fetchLoop responses 0 max_retries

/-- Whether a response makes the loop retry (neither 200 nor 404). -/
def isTransient : FetchResponse → Bool
  | FetchResponse.success _ => false
  | FetchResponse.notFound => false
  | _ => true

end AltafsirScraper

namespace AltafsirScraper

theorem scrapeChaptersLoop_fetched (tid : Int) :
    ∀ (cs : List Nat) (p : Progress), cs.Nodup →
      (scrapeChaptersLoop tid cs p).1
        = cs.filter (fun c => !decide (c ∈ p.completed_chapters)) := by
  intro cs
  induction cs with
  | nil => intro p _; rfl
  | cons c rest ih =>
    intro p hnd
    have hcrest : c ∉ rest := (List.nodup_cons.mp hnd).1
    have hndr : rest.Nodup := (List.nodup_cons.mp hnd).2
    rw [List.filter_cons]
    by_cases hc : c ∈ p.completed_chapters
    · have hdec : (!decide (c ∈ p.completed_chapters)) = false := by simp [hc]
      rw [hdec]
      simp only [Bool.false_eq_true, if_false]
      have hl : scrapeChaptersLoop tid (c :: rest) p
          = scrapeChaptersLoop tid rest p := by
        simp only [scrapeChaptersLoop, if_pos hc]
      rw [hl, ih p hndr]
    · have hdec : (!decide (c ∈ p.completed_chapters)) = true := by simp [hc]
      rw [hdec]
      simp only [if_true]
      simp only [scrapeChaptersLoop, if_neg hc]
      congr 1
      rw [ih _ hndr]
      apply List.filter_congr
      intro x hx
      have hxc : x ≠ c := fun hxc => hcrest (hxc ▸ hx)
      simp [List.mem_append, hxc]

theorem chapterRange_nodup (start_chapter end_chapter : Nat) :
    (chapterRange start_chapter end_chapter).Nodup := by
  unfold chapterRange
  exact List.nodup_range' _ _

/-- C2 (amended): on restart the chapter loop skips the chapters listed in
`completed_chapters` unconditionally — the requested edition is never
compared against the progress's current edition, so two crawls of different
editions over the same persisted `completed_chapters` fetch exactly the
same chapters, namely the chapters of the range not in that list; the
per-chapter list is not reset on an edition change (it is only reset in
`run_scraper` after an edition finishes). -/
theorem crawl_skips_completed_unconditionally (tid tid' : Int)
    (p p' : Progress) (start_chapter end_chapter : Nat)
    (hcc : p.completed_chapters = p'.completed_chapters) :
    (scrape_complete_tafsir tid p start_chapter end_chapter).1
        = (chapterRange start_chapter end_chapter).filter
            (fun c => !decide (c ∈ p.completed_chapters))
    ∧ (scrape_complete_tafsir tid p start_chapter end_chapter).1
        = (scrape_complete_tafsir tid' p' start_chapter end_chapter).1
    ∧ ∀ c ∈ p.completed_chapters,
        c ∉ (scrape_complete_tafsir tid p start_chapter end_chapter).1 := by
  have h1 : (scrape_complete_tafsir tid p start_chapter end_chapter).1
      = (chapterRange start_chapter end_chapter).filter
          (fun c => !decide (c ∈ p.completed_chapters)) :=
    scrapeChaptersLoop_fetched tid (chapterRange start_chapter end_chapter) p
      (chapterRange_nodup start_chapter end_chapter)
  have h2 : (scrape_complete_tafsir tid' p' start_chapter end_chapter).1
      = (chapterRange start_chapter end_chapter).filter
          (fun c => !decide (c ∈ p'.completed_chapters)) :=
    scrapeChaptersLoop_fetched tid' (chapterRange start_chapter end_chapter) p'
      (chapterRange_nodup start_chapter end_chapter)
  refine ⟨h1, ?_, ?_⟩
  · rw [h1, h2, hcc]
  · intro c hc hmem
    rw [h1] at hmem
    have := (List.mem_filter.mp hmem).2
    simp [hc] at this

/-- Persisted progress of an interrupted crawl of edition 5000: chapter 1
completed, edition not finished. -/
def staleProgress : Progress := ⟨[], some 5000, 1, [1]⟩

/-- Counterexample for C2: requesting edition 5001 while the persisted
progress belongs to edition 5000 still skips chapter 1 — the completed
list is honoured regardless of the edition and is not reset, so the claim's
"skipped if and only if the current edition matches" is false. -/
theorem crawl_skip_ignores_edition_counterexample :
    staleProgress.current_tafsir = some 5000
    ∧ ((5001 : Int) = 5000 → False)
    ∧ 1 ∈ staleProgress.completed_chapters
    ∧ (scrape_complete_tafsir 5001 staleProgress 1 3).1 = [2, 3]
    ∧ 1 ∉ (scrape_complete_tafsir 5001 staleProgress 1 3).1
    ∧ (scrape_complete_tafsir 5001 staleProgress 1 3).2.completed_chapters
        = [1, 2, 3] := by decide

/-- Witness: the unconditional-skip theorem applied to two different
requested editions (5000 and 5001) over the same stale completed list. -/
theorem crawl_skips_completed_unconditionally_witness :
    (scrape_complete_tafsir 5000 staleProgress 1 3).1
        = (chapterRange 1 3).filter
            (fun c => !decide (c ∈ staleProgress.completed_chapters))
    ∧ (scrape_complete_tafsir 5000 staleProgress 1 3).1
        = (scrape_complete_tafsir 5001 ⟨[5000], some 5001, 2, [1]⟩ 1 3).1
    ∧ ∀ c ∈ staleProgress.completed_chapters,
        c ∉ (scrape_complete_tafsir 5000 staleProgress 1 3).1 :=
  crawl_skips_completed_unconditionally 5000 5001 staleProgress
    ⟨[5000], some 5001, 2, [1]⟩ 1 3 (by decide)

theorem fetchLoop_all_transient (responses : Nat → FetchResponse) :
    ∀ (remaining attempt : Nat),
      (∀ i, attempt ≤ i → i < attempt + remaining →
        isTransient (responses i) = true) →
      fetchLoop responses attempt remaining = (none, attempt + remaining) := by
  intro remaining
  induction remaining with
  | zero => intro attempt _; simp [fetchLoop]
  | succ rem ih =>
    intro attempt h
    have ht : isTransient (responses attempt) = true :=
      h attempt (Nat.le_refl _) (by omega)
    cases hr : responses attempt with
    | success content => rw [hr] at ht; exact absurd ht (by simp [isTransient])
    | notFound => rw [hr] at ht; exact absurd ht (by simp [isTransient])
    | httpStatus code =>
      simp only [fetchLoop, hr]
      rw [ih (attempt + 1) (fun i h1 h2 => h i (by omega) (by omega))]
      congr 1
      omega
    | timeout =>
      simp only [fetchLoop, hr]
      rw [ih (attempt + 1) (fun i h1 h2 => h i (by omega) (by omega))]
      congr 1
      omega
    | netError msg =>
      simp only [fetchLoop, hr]
      rw [ih (attempt + 1) (fun i h1 h2 => h i (by omega) (by omega))]
      congr 1
      omega

theorem fetchLoop_notFound (responses : Nat → FetchResponse) :
    ∀ (remaining attempt k : Nat), attempt ≤ k → k < attempt + remaining →
      responses k = FetchResponse.notFound →
      (∀ i, attempt ≤ i → i < k → isTransient (responses i) = true) →
      fetchLoop responses attempt remaining = (none, k + 1) := by
  intro remaining
  induction remaining with
  | zero => intro attempt k h1 h2 _ _; omega
  | succ rem ih =>
    intro attempt k h1 h2 h404 hbefore
    by_cases hak : attempt = k
    · subst hak
      simp only [fetchLoop, h404]
    · have hlt : attempt < k := Nat.lt_of_le_of_ne h1 hak
      have ht : isTransient (responses attempt) = true :=
        hbefore attempt (Nat.le_refl _) hlt
      cases hr : responses attempt with
      | success content => rw [hr] at ht; exact absurd ht (by simp [isTransient])
      | notFound => rw [hr] at ht; exact absurd ht (by simp [isTransient])
      | httpStatus code =>
        simp only [fetchLoop, hr]
        exact ih (attempt + 1) k hlt (by omega) h404
          (fun i hi1 hi2 => hbefore i (by omega) hi2)
      | timeout =>
        simp only [fetchLoop, hr]
        exact ih (attempt + 1) k hlt (by omega) h404
          (fun i hi1 hi2 => hbefore i (by omega) hi2)
      | netError msg =>
        simp only [fetchLoop, hr]
        exact ih (attempt + 1) k hlt (by omega) h404
          (fun i hi1 hi2 => hbefore i (by omega) hi2)

/-- C7 (amended): a 404 is terminal — the fetch returns at that attempt and
makes no further attempt — but its return value is `None`, exactly the
value returned after exhausting all retry attempts on transient failures;
the two outcomes are therefore not distinct for the caller, only the log
line differs. -/
theorem fetch_404_terminal_returns_none
    (responses responses' : Nat → FetchResponse) (max_retries k : Nat)
    (hk : k < max_retries)
    (h404 : responses k = FetchResponse.notFound)
    (hbefore : ∀ i, i < k → isTransient (responses i) = true)
    (hall : ∀ i, i < max_retries → isTransient (responses' i) = true) :
    fetch_with_retry responses max_retries = (none, k + 1)
    ∧ fetch_with_retry responses' max_retries = (none, max_retries)
    ∧ (fetch_with_retry responses max_retries).1
        = (fetch_with_retry responses' max_retries).1 := by
  have h1 : fetch_with_retry responses max_retries = (none, k + 1) :=
    fetchLoop_notFound responses max_retries 0 k (Nat.zero_le _) (by omega)
      h404 (fun i _ hi => hbefore i hi)
  have h2 : fetch_with_retry responses' max_retries = (none, max_retries) := by
    have := fetchLoop_all_transient responses' max_retries 0
      (fun i _ hi => hall i (by omega))
    simpa [fetch_with_retry] using this
  exact ⟨h1, h2, by rw [h1, h2]⟩

def notFoundResponses : Nat → FetchResponse := fun _ => FetchResponse.notFound

def timeoutResponses : Nat → FetchResponse := fun _ => FetchResponse.timeout

/-- Counterexample for C7: a URL whose first response is a 404 and a URL
whose every attempt times out both yield the return value `None` — the 404
outcome is not a value distinct from the retries-exhausted outcome (they
differ only in attempts made and log lines). -/
theorem fetch_404_not_distinct_counterexample :
    fetch_with_retry notFoundResponses 3 = (none, 1)
    ∧ fetch_with_retry timeoutResponses 3 = (none, 3)
    ∧ (fetch_with_retry notFoundResponses 3).1
        = (fetch_with_retry timeoutResponses 3).1 := by decide

/-- Responses that time out once and then return 404. -/
def mixedResponses : Nat → FetchResponse :=
  fun i => if i = 0 then FetchResponse.timeout else FetchResponse.notFound

/-- Witness: the 404-terminal theorem applied to a 404 on attempt 1 after
one timeout, against an all-timeout peer. -/
theorem fetch_404_terminal_returns_none_witness :
    fetch_with_retry mixedResponses 3 = (none, 2)
    ∧ fetch_with_retry timeoutResponses 3 = (none, 3)
    ∧ (fetch_with_retry mixedResponses 3).1
        = (fetch_with_retry timeoutResponses 3).1 :=
  fetch_404_terminal_returns_none mixedResponses timeoutResponses 3 1
    (by omega) (by decide)
    (fun i hi => by
      have : i = 0 := by omega
      subst this
      decide)
    (fun i _ => rfl)

end AltafsirScraper

/-! ## Progress-file error handling and cross-module validator claims -/

/-- Counterexample for C5: a failing progress write is not propagated — for
both the crawler and the importer, `save_progress` catches the raised error,
logs it, and returns normally (`ok`), not the error. -/
theorem save_progress_swallows_counterexample :
    (AltafsirScraper.save_progress (Except.error "disk full")).1 = Except.ok ()
    ∧ ((AltafsirScraper.save_progress (Except.error "disk full")).1
        = Except.error "disk full" → False)
    ∧ (AltafsirImporter.save_progress (Except.error "disk full")).1 = Except.ok ()
    ∧ ((AltafsirImporter.save_progress (Except.error "disk full")).1
        = Except.error "disk full" → False) := by
  refine ⟨rfl, fun h => ?_, rfl, fun h => ?_⟩
  · simp [AltafsirScraper.save_progress] at h
  · simp [AltafsirImporter.save_progress] at h

/-- C5 (amended): a progress/checkpoint write failure is never fatal to the
run: both the crawler's and the importer's `save_progress` catch the write
error inside the function, emit one error log line, and return normally;
the caller always observes a normal return, whatever the write outcome. -/
theorem save_progress_never_propagates (w : Except String Unit) (e : String) :
    (AltafsirScraper.save_progress w).1 = Except.ok ()
    ∧ (AltafsirImporter.save_progress w).1 = Except.ok ()
    ∧ AltafsirScraper.save_progress (Except.error e)
        = (Except.ok (), ["Could not save progress: " ++ e])
    ∧ AltafsirImporter.save_progress (Except.error e)
        = (Except.ok (), ["Could not save progress: " ++ e]) := by
  refine ⟨?_, ?_, rfl, rfl⟩ <;> cases w <;> rfl

/-- C10: `load_progress` never raises at the public interface — whenever the
progress file is missing (`none`) or unreadable/invalid JSON (`some
(.error e)`), both the importer's and the crawler's `load_progress` return
their default progress structure: empty lists of processed files / completed
tafasir and a null current item. -/
theorem load_progress_returns_default
    (s : Option (Except String AltafsirImporter.ProgressData))
    (t : Option (Except String AltafsirScraper.Progress))
    (hs : s = none ∨ ∃ e, s = some (Except.error e))
    (ht : t = none ∨ ∃ e, t = some (Except.error e)) :
    AltafsirImporter.load_progress s = AltafsirImporter.defaultProgress
    ∧ AltafsirScraper.load_progress t = AltafsirScraper.defaultProgress
    ∧ AltafsirImporter.defaultProgress.processed_files = []
    ∧ AltafsirImporter.defaultProgress.failed_files = []
    ∧ AltafsirImporter.defaultProgress.last_file = none
    ∧ AltafsirScraper.defaultProgress.completed_tafasir = []
    ∧ AltafsirScraper.defaultProgress.current_tafsir = none := by
  have h1 : AltafsirImporter.load_progress s = AltafsirImporter.defaultProgress := by
    rcases hs with h | ⟨e, h⟩ <;> rw [h] <;> rfl
  have h2 : AltafsirScraper.load_progress t = AltafsirScraper.defaultProgress := by
    rcases ht with h | ⟨e, h⟩ <;> rw [h] <;> rfl
  exact ⟨h1, h2, rfl, rfl, rfl, rfl, rfl⟩

/-- Witness: a corrupt importer progress file and a missing scraper
progress file both load as the defaults. -/
theorem load_progress_returns_default_witness :
    AltafsirImporter.load_progress (some (Except.error "invalid json"))
        = AltafsirImporter.defaultProgress
    ∧ AltafsirScraper.load_progress none = AltafsirScraper.defaultProgress
    ∧ AltafsirImporter.defaultProgress.processed_files = []
    ∧ AltafsirImporter.defaultProgress.failed_files = []
    ∧ AltafsirImporter.defaultProgress.last_file = none
    ∧ AltafsirScraper.defaultProgress.completed_tafasir = []
    ∧ AltafsirScraper.defaultProgress.current_tafsir = none :=
  load_progress_returns_default (some (Except.error "invalid json")) none
    (Or.inr ⟨"invalid json", rfl⟩) (Or.inl rfl)

namespace AltafsirImporter

/-- One-record document whose verse reference (999, 999) both validators
reject, with non-blank text. -/
def invalidRefData : TafsirData :=
  { meta := { tid := 7003, tn := "Tafsir C", au := none, lang := "arabic",
              source_url := none }
    vs := [("999:999", ⟨999, 999, "some commentary"⟩)] }

end AltafsirImporter

/-- Counterexample for C9: the validator applied during crawl rejects
(999, 999), yet the importer accepts and stores a record with exactly that
reference — the validation applied before constructing a fetch URL and the
acceptance check applied before accepting a record do not agree, because the
importer applies no verse-reference validation at all. -/
theorem validator_not_shared_with_import_counterexample :
    ConfigUtils.validate_verse_reference 999 999 = false
    ∧ AltafsirScraper.validate_verse_reference 999 999 = false
    ∧ (AltafsirImporter.import_tafsir_verses (fun t => t) (fun _ => false) 1000
        AltafsirImporter.emptyDB AltafsirImporter.invalidRefData).2.1 = 1
    ∧ (AltafsirImporter.import_tafsir_verses (fun t => t) (fun _ => false) 1000
        AltafsirImporter.emptyDB AltafsirImporter.invalidRefData).1.rows.any
        (fun r => r.verse_key == "999:999" && r.chapter_number == 999) = true := by
  decide

/-- C9 (amended): the verse-reference check exists as two duplicated tables
—`AltafsirScraper.QURAN_CHAPTERS` used before constructing a fetch URL and
`config_utils`'s `VERSE_COUNTS` — whose validators currently agree on every
integer input; the importer, however, applies neither: a record with
non-blank text is accepted into the batch regardless of its verse
reference, even one both validators reject. -/
theorem validators_agree_import_unvalidated :
    (∀ c v : Int, AltafsirScraper.validate_verse_reference c v
        = ConfigUtils.validate_verse_reference c v)
    ∧ (∀ (hashFn : String → String) (meta : AltafsirImporter.Meta)
        (key : String) (vd : AltafsirImporter.VerseEntry)
        (entries : List (String × AltafsirImporter.VerseEntry)),
        (key, vd) ∈ entries →
        AltafsirImporter.stripIsEmpty vd.tf_t = false →
        ConfigUtils.validate_verse_reference vd.c vd.n = false →
        AltafsirImporter.mkRow hashFn meta key vd
          ∈ AltafsirImporter.acceptedList hashFn meta entries) := by
  constructor
  · intro c v
    by_cases hc : 1 ≤ c ∧ c ≤ 114
    · obtain ⟨h1, h2⟩ := hc
      have hguard : (c < 1 || c > 114) = false := by
        simp only [Bool.or_eq_false_iff, decide_eq_false_iff_not, not_lt]
        exact ⟨h1, h2⟩
      have htab := tables_agree c h1 h2
      have hvc := dictLookup_VERSE_COUNTS_inRange c h1 h2
      unfold AltafsirScraper.validate_verse_reference
        ConfigUtils.validate_verse_reference
      rw [hguard, hvc]
      cases hQ : dictLookup AltafsirScraper.QURAN_CHAPTERS c with
      | none => rw [hQ] at htab; rw [hvc] at htab; exact absurd htab (by simp)
      | some nv =>
        rw [hQ] at htab
        rw [hvc] at htab
        have hnv : nv.2 = ConfigUtils.verseCount c := by
          simpa using htab
        simp only [Bool.false_eq_true, if_false, hnv]
    · have hguard : (c < 1 || c > 114) = true := by
        rcases not_and_or.mp hc with h | h
        · simp only [Bool.or_eq_true, decide_eq_true_eq]
          exact Or.inl (lt_of_not_le h)
        · simp only [Bool.or_eq_true, decide_eq_true_eq]
          exact Or.inr (lt_of_not_le h)
      unfold AltafsirScraper.validate_verse_reference
        ConfigUtils.validate_verse_reference
      rw [hguard]
      rfl
  · intro hashFn meta key vd entries hmem hnb _
    exact AltafsirImporter.mem_acceptedList_of_nonblank hmem hnb

/-- Witness: the validator-agreement theorem instantiated at (2, 286) and
the import-acceptance part at the invalid-reference document. -/
theorem validators_agree_import_unvalidated_witness :
    AltafsirScraper.validate_verse_reference 2 286
        = ConfigUtils.validate_verse_reference 2 286
    ∧ AltafsirImporter.mkRow (fun t => t) AltafsirImporter.invalidRefData.meta
        "999:999" ⟨999, 999, "some commentary"⟩
        ∈ AltafsirImporter.acceptedList (fun t => t)
            AltafsirImporter.invalidRefData.meta
            AltafsirImporter.invalidRefData.vs :=
  ⟨validators_agree_import_unvalidated.1 2 286,
   validators_agree_import_unvalidated.2 (fun t => t)
     AltafsirImporter.invalidRefData.meta "999:999" ⟨999, 999, "some commentary"⟩
     AltafsirImporter.invalidRefData.vs (by decide) (by decide) (by decide)⟩
